import Mathlib

-- ===========================================================================
-- Definitions
-- ===========================================================================

/-- Game status: `'playing' | 'won'`. -/
inductive Status where
  | playing
  | won
deriving DecidableEq

/-- A category of 10 related items (`Category` in src/types/game.ts). -/
structure Category where
  id : String
  name : String
  items : List String
  difficulty : Nat
deriving DecidableEq

/-- A complete puzzle (`Puzzle` in src/types/game.ts). -/
structure Puzzle where
  id : String
  month : String
  categories : List Category
deriving DecidableEq

/-- A square on the game grid (`GridSquare` in src/types/game.ts). -/
structure GridSquare where
  id : String
  items : List String
  categoryId : String
  isSolved : Bool
deriving DecidableEq

/-- Runtime game state (`GameState` in src/types/game.ts); `endTime?` is an
`Option`. -/
structure GameState where
  puzzleId : String
  grid : List GridSquare
  mistakes : Nat
  solvedCategoryIds : List String
  status : Status
  startTime : Nat
  endTime : Option Nat
deriving DecidableEq

/-- Result of a merge attempt (`MergeResult` in src/types/game.ts).  The only
failure reason in the source is `'different-categories'`, so the failure
constructor carries no data. -/
inductive MergeResult where
  | success (mergedSquare : GridSquare) (solvedCategory : Option Category)
  | failure
deriving DecidableEq

/-- The four `useState` cells of the `useGameState` hook, combined. -/
structure FullState where
  gameState : GameState
  selectedSquareIds : List String
  lastMergeResult : Option MergeResult
  shakingSquareIds : List String
deriving DecidableEq

/-- One destructuring swap `[l[i], l[j]] = [l[j], l[i]]`. -/
def listSwap (l : List α) (i j : Nat) : List α :=
  if h : i < l.length ∧ j < l.length then
    (l.set i (l.get ⟨j, h.2⟩)).set j (l.get ⟨i, h.1⟩)
  else l

/-- The Fisher-Yates loop `for (let i = length - 1; i > 0; i--)`, with the
random index `j = Math.floor(Math.random() * (i + 1))` modelled as
`rs (i+1) % (i+2)` at loop counter `i+1`. -/
def shuffleFrom (rs : Nat → Nat) : Nat → List α → List α
  | 0, l => l
  | i + 1, l => shuffleFrom rs i (listSwap l (i + 1) (rs (i + 1) % (i + 2)))

/-- Source `shuffleArray` from src/data/samplePuzzle.ts: Fisher-Yates on a copy. -/
def shuffleArray (rs : Nat → Nat) (l : List α) : List α :=
  shuffleFrom rs (l.length - 1) l

/-- The 10 singleton squares produced for one category by the inner
`category.items.forEach((item, index) => ...)` loop of `initializeGrid`. -/
def squaresOfCategory (c : Category) : List GridSquare :=
  c.items.enum.map (fun e =>
    { id := c.id ++ "-" ++ toString e.1
      items := [e.2]
      categoryId := c.id
      isSolved := false })

/-- The 100 singleton squares of a puzzle before shuffling (the `squares`
accumulator of `initializeGrid`). -/
def unshuffledGrid (p : Puzzle) : List GridSquare :=
  p.categories.flatMap squaresOfCategory

/-- Source `initializeGrid`: expand the puzzle into singleton squares, then shuffle. -/
def initializeGrid (rs : Nat → Nat) (p : Puzzle) : List GridSquare :=
  shuffleArray rs (unshuffledGrid p)

/-- Source `initializeGameState`: fresh state for a new game. -/
def initializeGameState (rs : Nat → Nat) (now : Nat) (p : Puzzle) : GameState :=
  { puzzleId := p.id
    grid := initializeGrid rs p
    mistakes := 0
    solvedCategoryIds := []
    status := Status.playing
    startTime := now
    endTime := none }

/-- The hook's initial render: fresh game state, empty selection, no merge
result, no shaking squares. -/
def initialFullState (rs : Nat → Nat) (now : Nat) (p : Puzzle) : FullState :=
  { gameState := initializeGameState rs now p
    selectedSquareIds := []
    lastMergeResult := none
    shakingSquareIds := [] }

/-- Source `getSquareById`: `grid.find((sq) => sq.id === squareId)`. -/
def getSquareById (grid : List GridSquare) (squareId : String) : Option GridSquare :=
  grid.find? (fun sq => sq.id == squareId)

/-- Source `getCategoryById`: `puzzle.categories.find((cat) => cat.id === categoryId)`. -/
def getCategoryById (p : Puzzle) (categoryId : String) : Option Category :=
  p.categories.find? (fun cat => cat.id == categoryId)

/-- Source `isSquareSelected`: `selectedSquareIds.includes(squareId)`. -/
def isSquareSelected (fs : FullState) (squareId : String) : Bool :=
  fs.selectedSquareIds.contains squareId

/-- Source `attemptMerge`: look up both squares; missing id is a defensive failure
with no state change; distinct categories increment `mistakes`; a matching
category replaces both squares by the merged square (keeping the first
square's id), possibly appending to `solvedCategoryIds` and setting the win
status and `endTime`.  Returns the `MergeResult` with the updated state. -/
def attemptMerge (p : Puzzle) (now : Nat) (gs : GameState)
    (squareIdA squareIdB : String) : MergeResult × GameState :=
  match getSquareById gs.grid squareIdA, getSquareById gs.grid squareIdB with
  | some squareA, some squareB =>
    if squareA.categoryId ≠ squareB.categoryId then
      (MergeResult.failure, { gs with mistakes := gs.mistakes + 1 })
    else
      let mergedSquare : GridSquare :=
        { id := squareA.id
          items := squareA.items ++ squareB.items
          categoryId := squareA.categoryId
          isSolved := squareA.items.length + squareB.items.length == 10 }
      let newGrid :=
        (gs.grid.filter (fun sq => ¬(sq.id = squareIdA) ∧ ¬(sq.id = squareIdB)))
          ++ [mergedSquare]
      let newSolvedCategoryIds :=
        if mergedSquare.isSolved then gs.solvedCategoryIds ++ [mergedSquare.categoryId]
        else gs.solvedCategoryIds
      let isWon := newSolvedCategoryIds.length == 10
      let solvedCategory :=
        if mergedSquare.isSolved then getCategoryById p mergedSquare.categoryId else none
      (MergeResult.success mergedSquare solvedCategory,
       { gs with
          grid := newGrid
          solvedCategoryIds := newSolvedCategoryIds
          status := if isWon then Status.won else Status.playing
          endTime := if isWon then some now else none })
  | _, _ => (MergeResult.failure, gs)

/-- Source `selectSquare`: no-op when the game is won or the square is missing or
solved; otherwise clear feedback markers and either deselect, record a first
selection, or (second selection) attempt the merge and clear the selection. -/
def selectSquare (p : Puzzle) (now : Nat) (fs : FullState) (squareId : String) :
    FullState :=
  if fs.gameState.status = Status.won then fs
  else
    match getSquareById fs.gameState.grid squareId with
    | none => fs
    | some square =>
      if square.isSolved then fs
      else if fs.selectedSquareIds.contains squareId then
        { fs with
            lastMergeResult := none
            shakingSquareIds := []
            selectedSquareIds := fs.selectedSquareIds.filter (fun id => ¬(id = squareId)) }
      else
        match fs.selectedSquareIds with
        | [first] =>
          let rg := attemptMerge p now fs.gameState first squareId
          { gameState := rg.2
            selectedSquareIds := []
            lastMergeResult := some rg.1
            shakingSquareIds :=
              match rg.1 with
              | MergeResult.failure => [first, squareId]
              | MergeResult.success _ _ => [] }
        | _ =>
          { fs with
              lastMergeResult := none
              shakingSquareIds := []
              selectedSquareIds := [squareId] }

/-- Source `clearSelection`. -/
def clearSelection (fs : FullState) : FullState :=
  { fs with selectedSquareIds := [], lastMergeResult := none, shakingSquareIds := [] }

/-- Source `clearShake`. -/
def clearShake (fs : FullState) : FullState :=
  { fs with shakingSquareIds := [] }

/-- Source `resetGame`: reinitialize everything from the same puzzle. -/
def resetGame (rs : Nat → Nat) (now : Nat) (p : Puzzle) (_fs : FullState) : FullState :=
  { gameState := initializeGameState rs now p
    selectedSquareIds := []
    lastMergeResult := none
    shakingSquareIds := [] }

/-- A display row (`LayoutRow` in src/utils/gridLayout.ts). -/
structure LayoutRow where
  squares : List GridSquare
  totalItems : Nat
deriving DecidableEq

/-- Constant `TARGET_ITEMS_PER_ROW` (src/utils/gridLayout.ts). -/
def TARGET_ITEMS_PER_ROW : Nat := 5

/-- Constant `MAX_ITEMS_PER_ROW` (src/utils/gridLayout.ts). -/
def MAX_ITEMS_PER_ROW : Nat := 10

/-- The `for (const square of sorted)` loop of `packIntoRows`, with the
`currentSquares` / `currentTotal` accumulators made explicit, followed by the
final-row flush. -/
def packLoop : List GridSquare → List GridSquare → Nat → List LayoutRow
  | [], currentSquares, currentTotal =>
    if currentSquares.length > 0 then
      [{ squares := currentSquares, totalItems := currentTotal }]
    else []
  | square :: rest, currentSquares, currentTotal =>
    let itemCount := square.items.length
    let wouldExceed := currentTotal + itemCount > MAX_ITEMS_PER_ROW
    let isAtTarget := currentTotal ≥ TARGET_ITEMS_PER_ROW
    if (wouldExceed ∨ isAtTarget) ∧ currentSquares.length > 0 then
      { squares := currentSquares, totalItems := currentTotal }
        :: packLoop rest [square] itemCount
    else
      packLoop rest (currentSquares ++ [square]) (currentTotal + itemCount)

/-- Source `packIntoRows`: greedy packing of the squares, sorted by item count
descending.  JavaScript's `sort` with comparator
`(a, b) => b.items.length - a.items.length` is a stable descending sort, and
every stable sort of a list by the same key returns the same list; it is
modelled by the stable `List.insertionSort`. -/
def packIntoRows (squares : List GridSquare) : List LayoutRow :=
  if squares.length = 0 then []
  else
    packLoop
      (List.insertionSort (fun a b => b.items.length ≤ a.items.length) squares)
      [] 0

/-- Source `getUnsolvedSquares`. -/
def getUnsolvedSquares (squares : List GridSquare) : List GridSquare :=
  squares.filter (fun sq => ¬ sq.isSolved)

/-- Source `getSolvedSquares`. -/
def getSolvedSquares (squares : List GridSquare) : List GridSquare :=
  squares.filter (fun sq => sq.isSolved)

/-- The states a play session can be in: the initial render, closed under the
four public actions of the hook.  `rs` and `now` vary freely from call to
call. -/
inductive Reachable (p : Puzzle) : FullState → Prop where
  | init (rs : Nat → Nat) (now : Nat) : Reachable p (initialFullState rs now p)
  | select {fs : FullState} (now : Nat) (squareId : String) :
      Reachable p fs → Reachable p (selectSquare p now fs squareId)
  | reset {fs : FullState} (rs : Nat → Nat) (now : Nat) :
      Reachable p fs → Reachable p (resetGame rs now p fs)
  | clearSel {fs : FullState} : Reachable p fs → Reachable p (clearSelection fs)
  | clearShk {fs : FullState} : Reachable p fs → Reachable p (clearShake fs)

/-- The puzzle precondition of the spec: 10 categories of 10 items each, with
distinct category ids. -/
structure WellFormed (p : Puzzle) : Prop where
  catCount : p.categories.length = 10
  itemCount : ∀ c ∈ p.categories, c.items.length = 10
  idsNodup : (p.categories.map Category.id).Nodup

/-- Total number of items across a list of squares
(`Σ square.items.length`). -/
def totalItems (g : List GridSquare) : Nat :=
  (g.map (fun s => s.items.length)).sum

/-- Total number of items across the squares of one category. -/
def catItems (g : List GridSquare) (c : String) : Nat :=
  ((g.filter (fun s => s.categoryId = c)).map (fun s => s.items.length)).sum

/-- The merged square constructed in the success branch of `attemptMerge`. -/
def mergedSquareOf (squareA squareB : GridSquare) : GridSquare :=
  { id := squareA.id
    items := squareA.items ++ squareB.items
    categoryId := squareA.categoryId
    isSolved := squareA.items.length + squareB.items.length == 10 }

/-- Invariant over the `GameState` portion of a reachable state. -/
structure GInv (p : Puzzle) (gs : GameState) : Prop where
  idsNodup : (gs.grid.map GridSquare.id).Nodup
  solvedIff : ∀ sq ∈ gs.grid, sq.isSolved = (sq.items.length == 10)
  itemsPos : ∀ sq ∈ gs.grid, 1 ≤ sq.items.length
  catMem : ∀ sq ∈ gs.grid, sq.categoryId ∈ p.categories.map Category.id
  catTotal : ∀ c : String,
    catItems gs.grid c = if c ∈ p.categories.map Category.id then 10 else 0
  total : totalItems gs.grid = 100
  solvedNodup : gs.solvedCategoryIds.Nodup
  solvedChar : ∀ c : String, c ∈ gs.solvedCategoryIds ↔
    ∃ sq ∈ gs.grid, sq.categoryId = c ∧ sq.isSolved = true
  wonIff : gs.status = Status.won ↔ gs.solvedCategoryIds.length = 10
  endTimeIff : gs.endTime.isSome = true ↔ gs.status = Status.won

/-- Invariant over a reachable `FullState`. -/
structure StateInv (p : Puzzle) (fs : FullState) : Prop where
  ginv : GInv p fs.gameState
  selValid : ∀ a ∈ fs.selectedSquareIds,
    ∃ sq, getSquareById fs.gameState.grid a = some sq ∧ sq.isSolved = false
  selLen : fs.selectedSquareIds.length ≤ 1
  selWon : fs.gameState.status = Status.won → fs.selectedSquareIds = []

/-- A category with ten items for concrete evaluation. -/
def witnessCategory (cid : String) (d : Nat) : Category :=
  { id := cid
    name := cid
    items := (List.range 10).map (fun i => cid ++ toString i)
    difficulty := d }

/-- A concrete well-formed 10x10 puzzle used to evaluate the theorems. -/
def witnessPuzzle : Puzzle :=
  { id := "wp"
    month := "2026-01"
    categories := (List.range 10).map (fun k =>
      witnessCategory (String.mk [Char.ofNat (97 + k)]) (k + 1)) }

/-- A degenerate random stream: always 0. -/
def rsZero : Nat → Nat := fun _ => 0

set_option maxRecDepth 1000000

/-- The freshly initialized concrete state. -/
def witnessInit : FullState := initialFullState rsZero 0 witnessPuzzle

/-- The concrete state after selecting square `a-0`. -/
def witnessSel : FullState := selectSquare witnessPuzzle 0 witnessInit "a-0"

/-- The singleton square holding item `a0`. -/
def witnessSqA : GridSquare :=
  { id := "a-0", items := ["a0"], categoryId := "a", isSolved := false }

/-- The singleton square holding item `a1`. -/
def witnessSqB : GridSquare :=
  { id := "a-1", items := ["a1"], categoryId := "a", isSolved := false }

/-- One wide or unit square for the packing witness. -/
def witnessWide (n k : Nat) : GridSquare :=
  { id := "s" ++ toString k
    items := (List.range n).map (fun i => toString i)
    categoryId := "c"
    isSolved := false }

/-- A 9-item square followed by nine singleton squares. -/
def witnessPackInput : List GridSquare :=
  witnessWide 9 0 :: (List.range 9).map (fun k => witnessWide 1 (k + 1))

-- ===========================================================================
-- Theorems
-- ===========================================================================

theorem totalItems_nil : totalItems [] = 0 := rfl

theorem totalItems_cons (s : GridSquare) (g : List GridSquare) :
    totalItems (s :: g) = s.items.length + totalItems g := rfl

theorem totalItems_append (g₁ g₂ : List GridSquare) :
    totalItems (g₁ ++ g₂) = totalItems g₁ + totalItems g₂ := by
  simp [totalItems]

theorem totalItems_perm {g₁ g₂ : List GridSquare} (h : g₁.Perm g₂) :
    totalItems g₁ = totalItems g₂ := by
  unfold totalItems
  exact (h.map (fun s => s.items.length)).sum_eq

theorem catItems_cons (s : GridSquare) (g : List GridSquare) (c : String) :
    catItems (s :: g) c
      = (if s.categoryId = c then s.items.length else 0) + catItems g c := by
  by_cases h : s.categoryId = c <;> simp [catItems, h]

theorem catItems_append (g₁ g₂ : List GridSquare) (c : String) :
    catItems (g₁ ++ g₂) c = catItems g₁ c + catItems g₂ c := by
  simp [catItems]

theorem catItems_perm {g₁ g₂ : List GridSquare} (h : g₁.Perm g₂) (c : String) :
    catItems g₁ c = catItems g₂ c := by
  unfold catItems
  exact ((h.filter _).map (fun s => s.items.length)).sum_eq

theorem le_catItems_of_mem {g : List GridSquare} {s : GridSquare}
    (hmem : s ∈ g) (hc : s.categoryId = c) : s.items.length ≤ catItems g c := by
  induction g with
  | nil => cases hmem
  | cons x xs ih =>
    rcases List.mem_cons.mp hmem with rfl | hx
    · rw [catItems_cons, if_pos hc]; exact Nat.le_add_right _ _
    · rw [catItems_cons]; exact (ih hx).trans (Nat.le_add_left _ _)

theorem get_cons_set_perm :
    ∀ (xs : List α) (k : Nat) (h : k < xs.length) (y : α),
      (xs.get ⟨k, h⟩ :: xs.set k y).Perm (y :: xs)
  | [], k, h, y => absurd h (Nat.not_lt_zero k)
  | z :: zs, 0, _, y => List.Perm.swap y z zs
  | z :: zs, k + 1, h, y => by
    have h' := Nat.lt_of_succ_lt_succ h
    have ih := get_cons_set_perm zs k h' y
    show List.Perm (zs.get ⟨k, h'⟩ :: z :: zs.set k y) (y :: z :: zs)
    exact ((List.Perm.swap z _ _).trans (ih.cons z)).trans (List.Perm.swap y z zs)

theorem set_set_perm :
    ∀ (l : List α) (i j : Nat) (hi : i < l.length) (hj : j < l.length),
      ((l.set i (l.get ⟨j, hj⟩)).set j (l.get ⟨i, hi⟩)).Perm l
  | [], i, _, hi, _ => absurd hi (Nat.not_lt_zero i)
  | x :: xs, 0, 0, _, _ => by simp
  | x :: xs, 0, j + 1, hi, hj => by
    have h' := Nat.lt_of_succ_lt_succ hj
    show List.Perm (xs.get ⟨j, h'⟩ :: xs.set j x) (x :: xs)
    exact get_cons_set_perm xs j h' x
  | x :: xs, i + 1, 0, hi, hj => by
    have h' := Nat.lt_of_succ_lt_succ hi
    show List.Perm (xs.get ⟨i, h'⟩ :: xs.set i x) (x :: xs)
    exact get_cons_set_perm xs i h' x
  | x :: xs, i + 1, j + 1, hi, hj => by
    have ih := set_set_perm xs i j (Nat.lt_of_succ_lt_succ hi) (Nat.lt_of_succ_lt_succ hj)
    exact ih.cons x

theorem listSwap_perm (l : List α) (i j : Nat) : (listSwap l i j).Perm l := by
  unfold listSwap
  split
  · next h => exact set_set_perm l i j h.1 h.2
  · exact List.Perm.refl l

theorem shuffleFrom_perm (rs : Nat → Nat) :
    ∀ (n : Nat) (l : List α), (shuffleFrom rs n l).Perm l
  | 0, l => List.Perm.refl l
  | n + 1, l =>
    (shuffleFrom_perm rs n (listSwap l (n + 1) (rs (n + 1) % (n + 2)))).trans
      (listSwap_perm l (n + 1) (rs (n + 1) % (n + 2)))

theorem shuffleArray_perm (rs : Nat → Nat) (l : List α) :
    (shuffleArray rs l).Perm l :=
  shuffleFrom_perm rs (l.length - 1) l

theorem getSquareById_some {grid : List GridSquare} {a : String} {sq : GridSquare}
    (h : getSquareById grid a = some sq) : sq ∈ grid ∧ sq.id = a := by
  refine ⟨List.mem_of_find?_eq_some h, ?_⟩
  have h2 := List.find?_some h
  simpa [beq_iff_eq] using h2

theorem getSquareById_eq_some_iff {grid : List GridSquare} {a : String}
    {sq : GridSquare} (hnd : (grid.map GridSquare.id).Nodup) :
    getSquareById grid a = some sq ↔ sq ∈ grid ∧ sq.id = a := by
  constructor
  · exact getSquareById_some
  · rintro ⟨hmem, hid⟩
    induction grid with
    | nil => cases hmem
    | cons x xs ih =>
      rw [List.map_cons, List.nodup_cons] at hnd
      by_cases hx : x.id = a
      · have hsq : sq = x := by
          rcases List.mem_cons.mp hmem with rfl | htail
          · rfl
          · exact absurd (by rw [hx, ← hid]; exact List.mem_map_of_mem GridSquare.id htail :
              x.id ∈ List.map GridSquare.id xs) hnd.1
        rw [hsq]
        simp [getSquareById, List.find?_cons, hx]
      · have hmem' : sq ∈ xs := by
          rcases List.mem_cons.mp hmem with rfl | htail
          · exact absurd hid hx
          · exact htail
        have step : getSquareById (x :: xs) a = getSquareById xs a := by
          simp [getSquareById, List.find?_cons, beq_iff_eq, hx]
        rw [step]
        exact ih hnd.2 hmem'

theorem getSquareById_mem {grid : List GridSquare} {sq : GridSquare}
    (hnd : (grid.map GridSquare.id).Nodup) (hmem : sq ∈ grid) :
    getSquareById grid sq.id = some sq :=
  (getSquareById_eq_some_iff hnd).mpr ⟨hmem, rfl⟩

/-- A grid with distinct ids splits, up to permutation, as the square bearing
a given id followed by the squares whose id differs. -/
theorem perm_cons_filter_ne {grid : List GridSquare} {a : String} {sqA : GridSquare}
    (hnd : (grid.map GridSquare.id).Nodup)
    (hmem : sqA ∈ grid) (hid : sqA.id = a) :
    grid.Perm (sqA :: grid.filter (fun s => ¬(s.id = a))) := by
  induction grid with
  | nil => cases hmem
  | cons x xs ih =>
    rw [List.map_cons, List.nodup_cons] at hnd
    by_cases hx : x.id = a
    · have hsq : sqA = x := by
        rcases List.mem_cons.mp hmem with rfl | htail
        · rfl
        · exact absurd (by rw [hx, ← hid]; exact List.mem_map_of_mem GridSquare.id htail :
            x.id ∈ List.map GridSquare.id xs) hnd.1
      have hfilter : (x :: xs).filter (fun s => ¬(s.id = a)) = xs := by
        rw [List.filter_cons]
        rw [if_neg (by simp [hx])]
        exact List.filter_eq_self.mpr (fun s hs => by
          have hne : s.id ≠ a := fun heq => hnd.1 (by
            rw [hx, ← heq]; exact List.mem_map_of_mem GridSquare.id hs)
          simpa using hne)
      rw [hfilter, hsq]
    · have hmem' : sqA ∈ xs := by
        rcases List.mem_cons.mp hmem with rfl | htail
        · exact absurd hid hx
        · exact htail
      have hfilter : (x :: xs).filter (fun s => ¬(s.id = a))
          = x :: xs.filter (fun s => ¬(s.id = a)) := by
        rw [List.filter_cons, if_pos (by simpa using hx)]
      rw [hfilter]
      exact ((ih hnd.2 hmem').cons x).trans (List.Perm.swap sqA x _)

/-- A grid with distinct ids splits, up to permutation, as two squares with
distinct ids followed by the rest. -/
theorem grid_split {grid : List GridSquare} {a b : String} {sqA sqB : GridSquare}
    (hnd : (grid.map GridSquare.id).Nodup)
    (hA : getSquareById grid a = some sqA)
    (hB : getSquareById grid b = some sqB)
    (hab : a ≠ b) :
    grid.Perm (sqA :: sqB :: grid.filter (fun s => ¬(s.id = a) ∧ ¬(s.id = b))) := by
  obtain ⟨hAmem, hAid⟩ := getSquareById_some hA
  obtain ⟨hBmem, hBid⟩ := getSquareById_some hB
  have h1 := perm_cons_filter_ne hnd hAmem hAid
  have hndf : ((grid.filter (fun s => ¬(s.id = a))).map GridSquare.id).Nodup :=
    ((List.filter_sublist grid).map GridSquare.id).nodup hnd
  have hBmem' : sqB ∈ grid.filter (fun s => ¬(s.id = a)) :=
    List.mem_filter.mpr ⟨hBmem, by simp [hBid]; exact fun h => hab h.symm⟩
  have h2 := perm_cons_filter_ne hndf hBmem' hBid
  have hff : (grid.filter (fun s => ¬(s.id = a))).filter (fun s => ¬(s.id = b))
      = grid.filter (fun s => ¬(s.id = a) ∧ ¬(s.id = b)) := by
    rw [List.filter_filter]
    apply List.filter_congr
    intro s _
    simp [Bool.and_comm]
  rw [hff] at h2
  exact h1.trans (h2.cons sqA)

theorem digit_data (i : Nat) (h : i < 10) :
    (toString i).data = [Char.ofNat (48 + i)] := by
  interval_cases i <;> rfl

theorem squareId_inj {a b : String} {i j : Nat} (hi : i < 10) (hj : j < 10)
    (h : a ++ "-" ++ toString i = b ++ "-" ++ toString j) : a = b ∧ i = j := by
  have hd := congrArg String.data h
  rw [String.data_append, String.data_append, String.data_append,
    String.data_append, digit_data i hi, digit_data j hj] at hd
  have h2 : a.data ++ (('-' : Char) :: [Char.ofNat (48 + i)])
      = b.data ++ (('-' : Char) :: [Char.ofNat (48 + j)]) := by
    simpa [List.append_assoc] using hd
  have h3 := List.append_inj' h2 rfl
  have hchar : Char.ofNat (48 + i) = Char.ofNat (48 + j) := by
    have := h3.2
    simpa using this
  have hdig : ∀ x, x < 10 → ∀ y, y < 10 →
      Char.ofNat (48 + x) = Char.ofNat (48 + y) → x = y := by decide
  exact ⟨String.ext h3.1, hdig i hi j hj hchar⟩

theorem squaresOfCategory_map_id (c : Category) :
    (squaresOfCategory c).map GridSquare.id
      = (List.range c.items.length).map (fun i => c.id ++ "-" ++ toString i) := by
  unfold squaresOfCategory
  rw [List.map_map]
  have hc : (GridSquare.id ∘ fun e : Nat × String =>
      ({ id := c.id ++ "-" ++ toString e.1, items := [e.2], categoryId := c.id,
         isSolved := false } : GridSquare))
      = (fun i => c.id ++ "-" ++ toString i) ∘ Prod.fst := rfl
  rw [hc, ← List.map_map, List.enum_map_fst]

theorem squaresOfCategory_length (c : Category) :
    (squaresOfCategory c).length = c.items.length := by
  unfold squaresOfCategory
  rw [List.length_map, List.enum_length]

theorem mem_squaresOfCategory {c : Category} {sq : GridSquare}
    (h : sq ∈ squaresOfCategory c) :
    sq.items.length = 1 ∧ sq.isSolved = false ∧ sq.categoryId = c.id := by
  unfold squaresOfCategory at h
  obtain ⟨e, _, rfl⟩ := List.mem_map.mp h
  exact ⟨rfl, rfl, rfl⟩

theorem mem_unshuffledGrid {p : Puzzle} {sq : GridSquare}
    (h : sq ∈ unshuffledGrid p) :
    sq.items.length = 1 ∧ sq.isSolved = false
      ∧ sq.categoryId ∈ p.categories.map Category.id := by
  obtain ⟨c, hc, hsq⟩ := List.mem_flatMap.mp h
  obtain ⟨h1, h2, h3⟩ := mem_squaresOfCategory hsq
  exact ⟨h1, h2, h3 ▸ List.mem_map_of_mem Category.id hc⟩

theorem unshuffledGrid_ids_nodup {p : Puzzle} (wf : WellFormed p) :
    ((unshuffledGrid p).map GridSquare.id).Nodup := by
  unfold unshuffledGrid
  rw [List.map_flatMap, List.nodup_flatMap]
  constructor
  · intro c hc
    rw [squaresOfCategory_map_id, wf.itemCount c hc]
    exact List.Nodup.map_on
      (fun x hx y hy hxy =>
        (squareId_inj (List.mem_range.mp hx) (List.mem_range.mp hy) hxy).2)
      (List.nodup_range 10)
  · have hpw : List.Pairwise (fun c₁ c₂ : Category => c₁.id ≠ c₂.id) p.categories :=
      List.pairwise_map.mp wf.idsNodup
    refine List.Pairwise.imp_of_mem ?_ hpw
    intro c₁ c₂ hm₁ hm₂ hne
    intro x hx₁ hx₂
    have hx₁' : x ∈ List.map GridSquare.id (squaresOfCategory c₁) := hx₁
    have hx₂' : x ∈ List.map GridSquare.id (squaresOfCategory c₂) := hx₂
    rw [squaresOfCategory_map_id, wf.itemCount c₁ hm₁] at hx₁'
    rw [squaresOfCategory_map_id, wf.itemCount c₂ hm₂] at hx₂'
    obtain ⟨i, hi, rfl⟩ := List.mem_map.mp hx₁'
    obtain ⟨j, hj, hij⟩ := List.mem_map.mp hx₂'
    exact hne (squareId_inj (List.mem_range.mp hi) (List.mem_range.mp hj) hij.symm).1

theorem totalItems_squaresOfCategory (c : Category) :
    totalItems (squaresOfCategory c) = c.items.length := by
  unfold totalItems squaresOfCategory
  rw [List.map_map]
  have hc : ((fun s : GridSquare => s.items.length) ∘ fun e : Nat × String =>
      ({ id := c.id ++ "-" ++ toString e.1, items := [e.2], categoryId := c.id,
         isSolved := false } : GridSquare)) = fun _ => 1 := rfl
  rw [hc, List.map_const', List.sum_replicate, smul_eq_mul, Nat.mul_one,
    List.enum_length]

theorem catItems_squaresOfCategory (c : Category) (s : String) :
    catItems (squaresOfCategory c) s = if c.id = s then c.items.length else 0 := by
  by_cases h : c.id = s
  · have hfil : (squaresOfCategory c).filter (fun sq => sq.categoryId = s)
        = squaresOfCategory c :=
      List.filter_eq_self.mpr (fun sq hsq => by
        simp [(mem_squaresOfCategory hsq).2.2, h])
    rw [catItems, hfil, if_pos h, ← totalItems_squaresOfCategory c]
    rfl
  · have hfil : (squaresOfCategory c).filter (fun sq => sq.categoryId = s) = [] :=
      List.filter_eq_nil_iff.mpr (fun sq hsq => by
        simp [(mem_squaresOfCategory hsq).2.2, h])
    rw [catItems, hfil, if_neg h]
    rfl

theorem catItems_flatMap (s : String) :
    ∀ (cats : List Category), (∀ c ∈ cats, c.items.length = 10) →
      (cats.map Category.id).Nodup →
      catItems (cats.flatMap squaresOfCategory) s
        = if s ∈ cats.map Category.id then 10 else 0
  | [], _, _ => rfl
  | c :: cs, hlen, hnd => by
    rw [List.flatMap_cons, catItems_append, catItems_squaresOfCategory,
      hlen c (List.mem_cons_self c cs)]
    rw [List.map_cons, List.nodup_cons] at hnd
    have ih := catItems_flatMap s cs (fun x hx => hlen x (List.mem_cons_of_mem c hx))
      hnd.2
    by_cases h : c.id = s
    · have hns : s ∉ cs.map Category.id := h ▸ hnd.1
      rw [if_pos h, ih, if_neg hns, List.map_cons,
        if_pos (List.mem_cons.mpr (Or.inl h.symm))]
    · rw [if_neg h, ih]
      by_cases hs : s ∈ cs.map Category.id
      · rw [if_pos hs, List.map_cons,
          if_pos (List.mem_cons.mpr (Or.inr hs)), Nat.zero_add]
      · rw [if_neg hs, List.map_cons,
          if_neg (fun hc => (List.mem_cons.mp hc).elim (fun he => h he.symm) hs)]

theorem catItems_unshuffledGrid {p : Puzzle} (wf : WellFormed p) (s : String) :
    catItems (unshuffledGrid p) s
      = if s ∈ p.categories.map Category.id then 10 else 0 :=
  catItems_flatMap s p.categories wf.itemCount wf.idsNodup

theorem totalItems_flatMap :
    ∀ (cats : List Category), (∀ c ∈ cats, c.items.length = 10) →
      totalItems (cats.flatMap squaresOfCategory) = 10 * cats.length
  | [], _ => rfl
  | c :: cs, hlen => by
    rw [List.flatMap_cons, totalItems_append, totalItems_squaresOfCategory,
      hlen c (List.mem_cons_self c cs),
      totalItems_flatMap cs (fun x hx => hlen x (List.mem_cons_of_mem c hx)),
      List.length_cons]
    ring

theorem totalItems_unshuffledGrid {p : Puzzle} (wf : WellFormed p) :
    totalItems (unshuffledGrid p) = 100 := by
  unfold unshuffledGrid
  rw [totalItems_flatMap p.categories wf.itemCount, wf.catCount]

theorem unshuffledGrid_length {p : Puzzle} (wf : WellFormed p) :
    (unshuffledGrid p).length = 100 := by
  unfold unshuffledGrid
  have h : ∀ (cats : List Category), (∀ c ∈ cats, c.items.length = 10) →
      (cats.flatMap squaresOfCategory).length = 10 * cats.length := by
    intro cats
    induction cats with
    | nil => intro _; rfl
    | cons c cs ih =>
      intro hlen
      rw [List.flatMap_cons, List.length_append, squaresOfCategory_length,
        hlen c (List.mem_cons_self c cs),
        ih (fun x hx => hlen x (List.mem_cons_of_mem c hx)), List.length_cons]
      ring
  rw [h p.categories wf.itemCount, wf.catCount]

theorem status_if_iff (n : Nat) :
    ((if (n == 10 : Bool) then Status.won else Status.playing) = Status.won)
      ↔ n = 10 := by
  by_cases h : n = 10 <;> simp [h]

theorem endTime_if_isSome (n now : Nat) :
    (((if (n == 10 : Bool) then some now else none) : Option Nat).isSome = true)
      ↔ n = 10 := by
  by_cases h : n = 10 <;> simp [h]

-- path equations for attemptMerge

theorem attemptMerge_missing {p : Puzzle} {now : Nat} {gs : GameState}
    {a b : String}
    (h : getSquareById gs.grid a = none ∨ getSquareById gs.grid b = none) :
    attemptMerge p now gs a b = (MergeResult.failure, gs) := by
  unfold attemptMerge
  rcases h with h | h
  · rw [h]
  · rw [h]
    rcases getSquareById gs.grid a with _ | sq <;> rfl

theorem attemptMerge_mismatch {p : Puzzle} {now : Nat} {gs : GameState}
    {a b : String} {sqA sqB : GridSquare}
    (hA : getSquareById gs.grid a = some sqA)
    (hB : getSquareById gs.grid b = some sqB)
    (hcat : sqA.categoryId ≠ sqB.categoryId) :
    attemptMerge p now gs a b
      = (MergeResult.failure, { gs with mistakes := gs.mistakes + 1 }) := by
  unfold attemptMerge
  rw [hA, hB]
  dsimp only
  rw [if_pos hcat]

theorem attemptMerge_same {p : Puzzle} {now : Nat} {gs : GameState}
    {a b : String} {sqA sqB : GridSquare}
    (hA : getSquareById gs.grid a = some sqA)
    (hB : getSquareById gs.grid b = some sqB)
    (hcat : sqA.categoryId = sqB.categoryId) :
    attemptMerge p now gs a b
      = (MergeResult.success (mergedSquareOf sqA sqB)
          (if (mergedSquareOf sqA sqB).isSolved
            then getCategoryById p sqA.categoryId else none),
         { gs with
            grid := (gs.grid.filter (fun s => ¬(s.id = a) ∧ ¬(s.id = b)))
              ++ [mergedSquareOf sqA sqB]
            solvedCategoryIds :=
              if (mergedSquareOf sqA sqB).isSolved
                then gs.solvedCategoryIds ++ [sqA.categoryId]
                else gs.solvedCategoryIds
            status :=
              if ((if (mergedSquareOf sqA sqB).isSolved
                    then gs.solvedCategoryIds ++ [sqA.categoryId]
                    else gs.solvedCategoryIds).length == 10 : Bool)
                then Status.won else Status.playing
            endTime :=
              if ((if (mergedSquareOf sqA sqB).isSolved
                    then gs.solvedCategoryIds ++ [sqA.categoryId]
                    else gs.solvedCategoryIds).length == 10 : Bool)
                then some now else none }) := by
  have hne : ¬(sqA.categoryId ≠ sqB.categoryId) := not_not_intro hcat
  unfold attemptMerge
  rw [hA, hB]
  dsimp only
  rw [if_neg hne]
  rfl

theorem attemptMerge_ginv {p : Puzzle} {now : Nat} {gs : GameState} {a b : String}
    {sqA sqB : GridSquare}
    (h : GInv p gs)
    (hA : getSquareById gs.grid a = some sqA) (hAun : sqA.isSolved = false)
    (hB : getSquareById gs.grid b = some sqB) (hBun : sqB.isSolved = false)
    (hab : a ≠ b) :
    GInv p (attemptMerge p now gs a b).2 := by
  by_cases hcat : sqA.categoryId = sqB.categoryId
  · rw [attemptMerge_same hA hB hcat]
    obtain ⟨hAmem, hAid⟩ := getSquareById_some hA
    obtain ⟨hBmem, hBid⟩ := getSquareById_some hB
    set m := mergedSquareOf sqA sqB with hm
    set rest := gs.grid.filter (fun s => ¬(s.id = a) ∧ ¬(s.id = b)) with hrestdef
    have hsplit : gs.grid.Perm (sqA :: sqB :: rest) := grid_split h.idsNodup hA hB hab
    have hrest_sub : rest.Sublist gs.grid := List.filter_sublist gs.grid
    have hrest_mem : ∀ s ∈ rest, s ∈ gs.grid := fun s hs => hrest_sub.subset hs
    have hrest_ne : ∀ s ∈ rest, ¬(s.id = a) ∧ ¬(s.id = b) := fun s hs => by
      have h2 := (List.mem_filter.mp hs).2
      simpa using h2
    have hpermNew : (rest ++ [m]).Perm (m :: rest) := List.perm_append_singleton m rest
    have hmitems : m.items.length = sqA.items.length + sqB.items.length := by
      simp [hm, mergedSquareOf]
    have hmcat : m.categoryId = sqA.categoryId := rfl
    have hmid : m.id = sqA.id := rfl
    have hlenA : 1 ≤ sqA.items.length := h.itemsPos sqA hAmem
    have hlenB : 1 ≤ sqB.items.length := h.itemsPos sqB hBmem
    have solved_mem_rest : ∀ sq ∈ gs.grid, sq.isSolved = true → sq ∈ rest := by
      intro sq hsqmem hsqsolved
      rcases List.mem_cons.mp (hsplit.mem_iff.mp hsqmem) with rfl | h2
      · rw [hAun] at hsqsolved; cases hsqsolved
      rcases List.mem_cons.mp h2 with rfl | h3
      · rw [hBun] at hsqsolved; cases hsqsolved
      · exact h3
    have hnotin : m.isSolved = true → sqA.categoryId ∉ gs.solvedCategoryIds := by
      intro _ hin
      obtain ⟨sq, hsqmem, hsqcat, hsqsolved⟩ := (h.solvedChar _).mp hin
      have hsqlen : sq.items.length = 10 := by
        have h2 := h.solvedIff sq hsqmem
        rw [hsqsolved] at h2
        have h3 := h2.symm
        simpa using h3
      have h10 : 10 ≤ catItems rest sqA.categoryId :=
        hsqlen ▸ le_catItems_of_mem (solved_mem_rest sq hsqmem hsqsolved) hsqcat
      have hct := h.catTotal sqA.categoryId
      rw [catItems_perm hsplit, catItems_cons, catItems_cons, if_pos rfl,
        if_pos hcat.symm] at hct
      have hle : (if sqA.categoryId ∈ p.categories.map Category.id
          then 10 else 0) ≤ 10 := by split <;> omega
      omega
    refine ⟨?_, ?_, ?_, ?_, ?_, ?_, ?_, ?_, ?_, ?_⟩
    · -- ids nodup
      show ((rest ++ [m]).map GridSquare.id).Nodup
      rw [List.map_append, List.map_singleton]
      rw [(List.perm_append_singleton _ _).nodup_iff, List.nodup_cons]
      refine ⟨?_, (hrest_sub.map GridSquare.id).nodup h.idsNodup⟩
      show m.id ∉ rest.map GridSquare.id
      rw [hmid, hAid]
      intro hin
      obtain ⟨s, hs, hsid⟩ := List.mem_map.mp hin
      exact (hrest_ne s hs).1 hsid
    · -- isSolved iff 10 items
      show ∀ sq ∈ rest ++ [m], sq.isSolved = (sq.items.length == 10)
      intro sq hsq
      rcases List.mem_append.mp hsq with hr | hm2
      · exact h.solvedIff sq (hrest_mem sq hr)
      · rw [List.mem_singleton.mp hm2, hmitems]
        rfl
    · -- at least one item
      show ∀ sq ∈ rest ++ [m], 1 ≤ sq.items.length
      intro sq hsq
      rcases List.mem_append.mp hsq with hr | hm2
      · exact h.itemsPos sq (hrest_mem sq hr)
      · rw [List.mem_singleton.mp hm2, hmitems]
        omega
    · -- categories of squares come from the puzzle
      show ∀ sq ∈ rest ++ [m], sq.categoryId ∈ p.categories.map Category.id
      intro sq hsq
      rcases List.mem_append.mp hsq with hr | hm2
      · exact h.catMem sq (hrest_mem sq hr)
      · rw [List.mem_singleton.mp hm2, hmcat]
        exact h.catMem sqA hAmem
    · -- per-category item counts
      intro c
      show catItems (rest ++ [m]) c = _
      rw [catItems_perm hpermNew, catItems_cons]
      have hct := h.catTotal c
      rw [catItems_perm hsplit, catItems_cons, catItems_cons] at hct
      rw [hmcat, hmitems]
      by_cases hc : sqA.categoryId = c
      · rw [if_pos hc]
        rw [if_pos hc, if_pos (by rw [← hcat]; exact hc)] at hct
        rw [← hct]
        omega
      · rw [if_neg hc]
        rw [if_neg hc, if_neg (fun hbc => hc (hcat.trans hbc))] at hct
        rw [← hct]
        omega
    · -- 100 items in total
      show totalItems (rest ++ [m]) = 100
      rw [totalItems_perm hpermNew, totalItems_cons, hmitems]
      have ht := h.total
      rw [totalItems_perm hsplit, totalItems_cons, totalItems_cons] at ht
      omega
    · -- solved ids distinct
      show (if m.isSolved then gs.solvedCategoryIds ++ [sqA.categoryId]
        else gs.solvedCategoryIds).Nodup
      by_cases hsolv : m.isSolved = true
      · rw [if_pos hsolv, (List.perm_append_singleton _ _).nodup_iff, List.nodup_cons]
        exact ⟨hnotin hsolv, h.solvedNodup⟩
      · rw [if_neg hsolv]
        exact h.solvedNodup
    · -- solved ids are exactly the categories of solved squares
      intro c
      show c ∈ (if m.isSolved then gs.solvedCategoryIds ++ [sqA.categoryId]
          else gs.solvedCategoryIds) ↔
        ∃ sq ∈ rest ++ [m], sq.categoryId = c ∧ sq.isSolved = true
      by_cases hsolv : m.isSolved = true
      · rw [if_pos hsolv]
        constructor
        · intro hc
          rcases List.mem_append.mp hc with hcS | hceq
          · obtain ⟨sq, hsqmem, hsqcat, hsqsolved⟩ := (h.solvedChar c).mp hcS
            exact ⟨sq, List.mem_append_left _ (solved_mem_rest sq hsqmem hsqsolved),
              hsqcat, hsqsolved⟩
          · refine ⟨m, List.mem_append_right _ (List.mem_singleton_self m), ?_, hsolv⟩
            rw [hmcat, List.mem_singleton.mp hceq]
        · rintro ⟨sq, hsqmem, hsqcat, hsqsolved⟩
          rcases List.mem_append.mp hsqmem with hr | hm2
          · exact List.mem_append_left _
              ((h.solvedChar c).mpr ⟨sq, hrest_mem sq hr, hsqcat, hsqsolved⟩)
          · apply List.mem_append_right
            rw [List.mem_singleton.mp hm2] at hsqcat
            rw [List.mem_singleton, ← hsqcat, hmcat]
      · rw [if_neg hsolv, h.solvedChar c]
        constructor
        · rintro ⟨sq, hsqmem, hsqcat, hsqsolved⟩
          exact ⟨sq, List.mem_append_left _ (solved_mem_rest sq hsqmem hsqsolved),
            hsqcat, hsqsolved⟩
        · rintro ⟨sq, hsqmem, hsqcat, hsqsolved⟩
          rcases List.mem_append.mp hsqmem with hr | hm2
          · exact ⟨sq, hrest_mem sq hr, hsqcat, hsqsolved⟩
          · rw [List.mem_singleton.mp hm2] at hsqsolved
            exact absurd hsqsolved hsolv
    · -- status is won exactly at 10 solved categories
      exact status_if_iff _
    · -- endTime is set exactly when won
      exact (endTime_if_isSome _ now).trans (status_if_iff _).symm
  · rw [attemptMerge_mismatch hA hB hcat]
    exact ⟨h.idsNodup, h.solvedIff, h.itemsPos, h.catMem, h.catTotal, h.total,
      h.solvedNodup, h.solvedChar, h.wonIff, h.endTimeIff⟩

-- path equations for selectSquare

theorem selectSquare_won {p : Puzzle} {now : Nat} {fs : FullState} {i : String}
    (h : fs.gameState.status = Status.won) : selectSquare p now fs i = fs := by
  unfold selectSquare
  rw [if_pos h]

theorem selectSquare_missing {p : Puzzle} {now : Nat} {fs : FullState} {i : String}
    (h : getSquareById fs.gameState.grid i = none) :
    selectSquare p now fs i = fs := by
  unfold selectSquare
  by_cases hw : fs.gameState.status = Status.won
  · rw [if_pos hw]
  · rw [if_neg hw, h]

theorem selectSquare_solved {p : Puzzle} {now : Nat} {fs : FullState} {i : String}
    {sq : GridSquare} (hsq : getSquareById fs.gameState.grid i = some sq)
    (hs : sq.isSolved = true) : selectSquare p now fs i = fs := by
  unfold selectSquare
  by_cases hw : fs.gameState.status = Status.won
  · rw [if_pos hw]
  · rw [if_neg hw, hsq]
    dsimp only
    rw [if_pos hs]

theorem selectSquare_deselect {p : Puzzle} {now : Nat} {fs : FullState} {i : String}
    {sq : GridSquare} (hw : ¬(fs.gameState.status = Status.won))
    (hsq : getSquareById fs.gameState.grid i = some sq) (hs : sq.isSolved = false)
    (hcont : fs.selectedSquareIds.contains i = true) :
    selectSquare p now fs i =
      { fs with
          lastMergeResult := none
          shakingSquareIds := []
          selectedSquareIds := fs.selectedSquareIds.filter (fun id => ¬(id = i)) } := by
  unfold selectSquare
  rw [if_neg hw, hsq]
  dsimp only
  rw [if_neg (by rw [hs]; exact Bool.false_ne_true), if_pos hcont]

theorem selectSquare_second {p : Puzzle} {now : Nat} {fs : FullState} {i : String}
    {sq : GridSquare} {first : String} (hw : ¬(fs.gameState.status = Status.won))
    (hsq : getSquareById fs.gameState.grid i = some sq) (hs : sq.isSolved = false)
    (hcont : fs.selectedSquareIds.contains i = false)
    (hsel : fs.selectedSquareIds = [first]) :
    selectSquare p now fs i =
      { gameState := (attemptMerge p now fs.gameState first i).2
        selectedSquareIds := []
        lastMergeResult := some (attemptMerge p now fs.gameState first i).1
        shakingSquareIds :=
          match (attemptMerge p now fs.gameState first i).1 with
          | MergeResult.failure => [first, i]
          | MergeResult.success _ _ => [] } := by
  unfold selectSquare
  rw [if_neg hw, hsq]
  dsimp only
  rw [if_neg (by rw [hs]; exact Bool.false_ne_true), hsel]
  rw [hsel] at hcont
  rw [if_neg (by rw [hcont]; exact Bool.false_ne_true)]

theorem selectSquare_first {p : Puzzle} {now : Nat} {fs : FullState} {i : String}
    {sq : GridSquare} (hw : ¬(fs.gameState.status = Status.won))
    (hsq : getSquareById fs.gameState.grid i = some sq) (hs : sq.isSolved = false)
    (hcont : fs.selectedSquareIds.contains i = false)
    (hsel : fs.selectedSquareIds = []) :
    selectSquare p now fs i =
      { fs with
          lastMergeResult := none
          shakingSquareIds := []
          selectedSquareIds := [i] } := by
  unfold selectSquare
  rw [if_neg hw, hsq]
  dsimp only
  rw [if_neg (by rw [hs]; exact Bool.false_ne_true), hsel]
  rw [hsel] at hcont
  rw [if_neg (by rw [hcont]; exact Bool.false_ne_true)]

-- invariant preservation

theorem selectSquare_inv {p : Puzzle} {now : Nat} {fs : FullState} {i : String}
    (hInv : StateInv p fs) : StateInv p (selectSquare p now fs i) := by
  by_cases hw : fs.gameState.status = Status.won
  · rw [selectSquare_won hw]
    exact hInv
  cases hsq : getSquareById fs.gameState.grid i with
  | none =>
    rw [selectSquare_missing hsq]
    exact hInv
  | some sq =>
    by_cases hs : sq.isSolved = true
    · rw [selectSquare_solved hsq hs]
      exact hInv
    have hs' : sq.isSolved = false := Bool.eq_false_iff.mpr hs
    by_cases hcont : fs.selectedSquareIds.contains i = true
    · rw [selectSquare_deselect hw hsq hs' hcont]
      refine ⟨hInv.ginv, ?_, ?_, ?_⟩
      · intro x hx
        exact hInv.selValid x (List.mem_of_mem_filter hx)
      · exact le_trans (List.length_filter_le _ _) hInv.selLen
      · intro hwon
        exact absurd hwon hw
    · have hcont' : fs.selectedSquareIds.contains i = false := Bool.eq_false_iff.mpr hcont
      rcases hsel : fs.selectedSquareIds with _ | ⟨first, _ | ⟨y, zs⟩⟩
      · rw [selectSquare_first hw hsq hs' hcont' hsel]
        refine ⟨hInv.ginv, ?_, ?_, ?_⟩
        · intro x hx
          rw [List.mem_singleton.mp hx]
          exact ⟨sq, hsq, hs'⟩
        · exact Nat.le_refl 1
        · intro hwon
          exact absurd hwon hw
      · obtain ⟨sqA, hA, hAun⟩ :=
          hInv.selValid first (by rw [hsel]; exact List.mem_singleton_self first)
        have hab : first ≠ i := fun heq => hcont (by rw [hsel, heq]; simp)
        rw [selectSquare_second hw hsq hs' hcont' hsel]
        refine ⟨attemptMerge_ginv hInv.ginv hA hAun hsq hs' hab, ?_, ?_, ?_⟩
        · intro x hx
          cases hx
        · exact Nat.zero_le 1
        · intro _
          rfl
      · exfalso
        have := hInv.selLen
        rw [hsel] at this
        simp at this

theorem initial_ginv {p : Puzzle} (rs : Nat → Nat) (now : Nat) (wf : WellFormed p) :
    GInv p (initializeGameState rs now p) := by
  have hperm : (initializeGrid rs p).Perm (unshuffledGrid p) :=
    shuffleArray_perm rs (unshuffledGrid p)
  have hmem : ∀ sq ∈ initializeGrid rs p, sq ∈ unshuffledGrid p :=
    fun sq hsq => hperm.mem_iff.mp hsq
  refine ⟨?_, ?_, ?_, ?_, ?_, ?_, ?_, ?_, ?_, ?_⟩
  · exact (hperm.map GridSquare.id).nodup_iff.mpr (unshuffledGrid_ids_nodup wf)
  · intro sq hsq
    obtain ⟨h1, h2, _⟩ := mem_unshuffledGrid (hmem sq hsq)
    rw [h1, h2]
    rfl
  · intro sq hsq
    rw [(mem_unshuffledGrid (hmem sq hsq)).1]
  · intro sq hsq
    exact (mem_unshuffledGrid (hmem sq hsq)).2.2
  · intro c
    rw [show catItems (initializeGameState rs now p).grid c
        = catItems (initializeGrid rs p) c from rfl]
    rw [catItems_perm hperm, catItems_unshuffledGrid wf]
  · rw [show totalItems (initializeGameState rs now p).grid
        = totalItems (initializeGrid rs p) from rfl]
    rw [totalItems_perm hperm, totalItems_unshuffledGrid wf]
  · exact List.nodup_nil
  · intro c
    constructor
    · intro hc
      cases hc
    · rintro ⟨sq, hsq, _, hsolved⟩
      rw [(mem_unshuffledGrid (hmem sq hsq)).2.1] at hsolved
      cases hsolved
  · constructor
    · intro hc
      cases hc
    · intro hc
      cases hc
  · constructor
    · intro hc
      cases hc
    · intro hc
      cases hc

theorem initial_inv {p : Puzzle} (rs : Nat → Nat) (now : Nat) (wf : WellFormed p) :
    StateInv p (initialFullState rs now p) := by
  refine ⟨initial_ginv rs now wf, ?_, ?_, ?_⟩
  · intro x hx
    cases hx
  · exact Nat.zero_le 1
  · intro _
    rfl

/-- Every reachable state of a well-formed puzzle satisfies the invariant. -/
theorem reachable_inv {p : Puzzle} {fs : FullState} (wf : WellFormed p)
    (h : Reachable p fs) : StateInv p fs := by
  induction h with
  | init rs now => exact initial_inv rs now wf
  | select now i _ ih => exact selectSquare_inv ih
  | reset rs now _ _ => exact initial_inv rs now wf
  | clearSel _ ih =>
    refine ⟨ih.ginv, ?_, ?_, ?_⟩
    · intro x hx
      cases hx
    · exact Nat.zero_le 1
    · intro _
      rfl
  | clearShk _ ih => exact ⟨ih.ginv, ih.selValid, ih.selLen, ih.selWon⟩

theorem packLoop_spec :
    ∀ (l cur : List GridSquare) (t : Nat),
      (∀ s ∈ l, s.items.length ≤ MAX_ITEMS_PER_ROW) →
      t = totalItems cur →
      t ≤ MAX_ITEMS_PER_ROW →
      (cur = [] → t = 0) →
      ∀ r ∈ packLoop l cur t,
        r.squares ≠ [] ∧ r.totalItems = totalItems r.squares
          ∧ r.totalItems ≤ MAX_ITEMS_PER_ROW
  | [], cur, t, _, hsum, hle, _ => by
    intro r hr
    unfold packLoop at hr
    split at hr
    · next hcur =>
      rw [List.mem_singleton.mp hr]
      refine ⟨?_, hsum, hle⟩
      intro hnil
      have hnil' : cur = [] := hnil
      rw [hnil'] at hcur
      simp at hcur
    · cases hr
  | square :: rest, cur, t, hbound, hsum, hle, hemp => by
    intro r hr
    unfold packLoop at hr
    dsimp only at hr
    split at hr
    · next hcond =>
      rcases List.mem_cons.mp hr with rfl | hr2
      · refine ⟨?_, hsum, hle⟩
        intro hnil
        have hnil' : cur = [] := hnil
        rw [hnil'] at hcond
        simp at hcond
      · refine packLoop_spec rest [square] square.items.length
          (fun s hs => hbound s (List.mem_cons_of_mem square hs))
          (by simp [totalItems])
          (hbound square (List.mem_cons_self square rest))
          (by intro hnil; cases hnil) r hr2
    · next hcond =>
      refine packLoop_spec rest (cur ++ [square]) (t + square.items.length)
        (fun s hs => hbound s (List.mem_cons_of_mem square hs))
        (by rw [totalItems_append, ← hsum]; rfl)
        ?_
        (by intro hnil; exact absurd hnil (by simp)) r hr
      by_cases hcur : cur = []
      · rw [hemp hcur, Nat.zero_add]
        exact hbound square (List.mem_cons_self square rest)
      · have hlen : cur.length > 0 := List.length_pos.mpr hcur
        have hnot : ¬(t + square.items.length > MAX_ITEMS_PER_ROW
            ∨ t ≥ TARGET_ITEMS_PER_ROW) := fun hor => hcond ⟨hor, hlen⟩
        omega

theorem witnessPuzzle_wf : WellFormed witnessPuzzle :=
  ⟨by decide, by decide, by decide⟩

/-- C5: `selectSquare` is a no-op — the whole state is returned unchanged, no
merge is attempted and `mistakes` is untouched — when the game is won, when
the id matches no square of the grid, or when the square is solved. -/
theorem claim_C5_selectSquare_noop (p : Puzzle) (now : Nat) (fs : FullState)
    (i : String) :
    (fs.gameState.status = Status.won → selectSquare p now fs i = fs)
    ∧ (getSquareById fs.gameState.grid i = none → selectSquare p now fs i = fs)
    ∧ (∀ sq : GridSquare, getSquareById fs.gameState.grid i = some sq →
        sq.isSolved = true → selectSquare p now fs i = fs) :=
  ⟨selectSquare_won, selectSquare_missing, fun _ hsq hs => selectSquare_solved hsq hs⟩

/-- C9: `packIntoRows` is deterministic — equal input lists give equal row
lists — and the empty input yields the empty row list.  (As a function of a
pure shallow embedding it cannot mutate its input.) -/
theorem claim_C9_pack_pure :
    packIntoRows [] = []
    ∧ ∀ (s₁ s₂ : List GridSquare), s₁ = s₂ → packIntoRows s₁ = packIntoRows s₂ :=
  ⟨rfl, fun s₁ s₂ h => by rw [h]⟩

/-- C3: in every reachable state of a well-formed puzzle the grid's item
count totals 100. -/
theorem claim_C3_total_100 (p : Puzzle) (fs : FullState) (wf : WellFormed p)
    (hreach : Reachable p fs) : totalItems fs.gameState.grid = 100 :=
  (reachable_inv wf hreach).ginv.total

/-- C10: in every reachable state the grid's square ids are pairwise
distinct, and `getSquareById` returns exactly the unique square bearing the
requested id (`none` otherwise). -/
theorem claim_C10_ids_nodup (p : Puzzle) (fs : FullState) (wf : WellFormed p)
    (hreach : Reachable p fs) :
    (fs.gameState.grid.map GridSquare.id).Nodup
    ∧ ∀ (a : String) (sq : GridSquare),
        getSquareById fs.gameState.grid a = some sq
          ↔ sq ∈ fs.gameState.grid ∧ sq.id = a := by
  have hnd := (reachable_inv wf hreach).ginv.idsNodup
  exact ⟨hnd, fun a sq => getSquareById_eq_some_iff hnd⟩

/-- C4: in every reachable state `solvedCategoryIds` has no duplicates,
`status = won` exactly when 10 categories are solved, exactly when `endTime`
is set; and in a won state `selectSquare` returns the state unchanged while
`clearSelection`/`clearShake` leave the whole `GameState` unchanged (only
`resetGame` leaves a won game). -/
theorem claim_C4_won_invariants (p : Puzzle) (fs : FullState) (wf : WellFormed p)
    (hreach : Reachable p fs) :
    fs.gameState.solvedCategoryIds.Nodup
    ∧ (fs.gameState.status = Status.won
        ↔ fs.gameState.solvedCategoryIds.length = 10)
    ∧ (fs.gameState.status = Status.won ↔ fs.gameState.endTime.isSome = true)
    ∧ (fs.gameState.status = Status.won →
        (∀ (now : Nat) (i : String), selectSquare p now fs i = fs)
        ∧ (clearSelection fs).gameState = fs.gameState
        ∧ (clearShake fs).gameState = fs.gameState) := by
  have hInv := (reachable_inv wf hreach).ginv
  exact ⟨hInv.solvedNodup, hInv.wonIff, hInv.endTimeIff.symm,
    fun hwon => ⟨fun now i => selectSquare_won hwon, rfl, rfl⟩⟩

/-- C8: from a reachable state whose sole selection is an existing unsolved
square, selecting that same square again deselects it: the selection becomes
empty, no merge is attempted, and the `GameState` (grid, mistakes,
solvedCategoryIds, status, timestamps) is unchanged. -/
theorem claim_C8_deselect (p : Puzzle) (now : Nat) (fs : FullState) (a : String)
    (sq : GridSquare) (wf : WellFormed p) (hreach : Reachable p fs)
    (hsel : fs.selectedSquareIds = [a])
    (hA : getSquareById fs.gameState.grid a = some sq)
    (hAun : sq.isSolved = false) :
    (selectSquare p now fs a).selectedSquareIds = []
    ∧ (selectSquare p now fs a).gameState = fs.gameState := by
  have hInv := reachable_inv wf hreach
  have hw : ¬(fs.gameState.status = Status.won) := fun hwon => by
    rw [hInv.selWon hwon] at hsel
    cases hsel
  have hcont : fs.selectedSquareIds.contains a = true := by
    rw [hsel]
    simp
  rw [selectSquare_deselect hw hA hAun hcont]
  refine ⟨?_, rfl⟩
  show (fs.selectedSquareIds.filter (fun id => ¬(id = a))) = []
  rw [hsel]
  simp

/-- C6: if every input square carries at most `MAX_ITEMS_PER_ROW` (10) items,
every row emitted by `packIntoRows` is non-empty, records as `totalItems`
exactly the sum of its member squares' item counts, and that total never
exceeds 10. -/
theorem claim_C6_pack_rows (squares : List GridSquare)
    (hbound : ∀ s ∈ squares, s.items.length ≤ MAX_ITEMS_PER_ROW) :
    ∀ r ∈ packIntoRows squares,
      r.squares ≠ [] ∧ r.totalItems = totalItems r.squares
        ∧ r.totalItems ≤ MAX_ITEMS_PER_ROW := by
  intro r hr
  unfold packIntoRows at hr
  split at hr
  · cases hr
  · refine packLoop_spec _ [] 0 ?_ rfl (by omega) (fun _ => rfl) r hr
    intro s hs
    exact hbound s ((List.perm_insertionSort _ squares).mem_iff.mp hs)

/-- C7: `resetGame` coincides with the initial state construction: its grid
is a permutation of the 100 singleton squares (one per item, with the id
derived from the category id and item index, unsolved), `mistakes` is 0,
`solvedCategoryIds` is empty, the status is `playing`, `startTime` is the
current time and `endTime` is unset.  The input puzzle is a value the pure
embedding never mutates. -/
theorem claim_C7_reset (p : Puzzle) (rs : Nat → Nat) (now : Nat)
    (fs : FullState) (wf : WellFormed p) :
    resetGame rs now p fs = initialFullState rs now p
    ∧ (resetGame rs now p fs).gameState.grid.Perm (unshuffledGrid p)
    ∧ (resetGame rs now p fs).gameState.grid.length = 100
    ∧ (∀ sq ∈ (resetGame rs now p fs).gameState.grid,
        sq.items.length = 1 ∧ sq.isSolved = false)
    ∧ (∀ c ∈ p.categories, ∀ e ∈ c.items.enum,
        ({ id := c.id ++ "-" ++ toString e.1, items := [e.2], categoryId := c.id,
           isSolved := false } : GridSquare) ∈ (resetGame rs now p fs).gameState.grid)
    ∧ (resetGame rs now p fs).gameState.mistakes = 0
    ∧ (resetGame rs now p fs).gameState.solvedCategoryIds = []
    ∧ (resetGame rs now p fs).gameState.status = Status.playing
    ∧ (resetGame rs now p fs).gameState.startTime = now
    ∧ (resetGame rs now p fs).gameState.endTime = none := by
  have hperm : (resetGame rs now p fs).gameState.grid.Perm (unshuffledGrid p) :=
    shuffleArray_perm rs (unshuffledGrid p)
  refine ⟨rfl, hperm, ?_, ?_, ?_, rfl, rfl, rfl, rfl, rfl⟩
  · rw [hperm.length_eq, unshuffledGrid_length wf]
  · intro sq hsq
    have h := mem_unshuffledGrid (hperm.mem_iff.mp hsq)
    exact ⟨h.1, h.2.1⟩
  · intro c hc e he
    refine hperm.mem_iff.mpr (List.mem_flatMap.mpr ⟨c, hc, ?_⟩)
    unfold squaresOfCategory
    exact List.mem_map.mpr ⟨e, he, rfl⟩

/-- C1: from a reachable playing state whose sole selection is the unsolved
square `a`, selecting a distinct square `b` of the same category replaces the
two squares by a single merged square: it keeps `a`'s id, concatenates `a`'s
items then `b`'s items, carries the shared category, is solved exactly when
the combined count is 10, is the unique square with that id, and the grid
shrinks by exactly one square. -/
theorem claim_C1_merge_same_category (p : Puzzle) (now : Nat) (fs : FullState)
    (a b : String) (sqA sqB : GridSquare) (wf : WellFormed p)
    (hreach : Reachable p fs)
    (hplay : fs.gameState.status = Status.playing)
    (hsel : fs.selectedSquareIds = [a])
    (hA : getSquareById fs.gameState.grid a = some sqA)
    (hAun : sqA.isSolved = false)
    (hB : getSquareById fs.gameState.grid b = some sqB)
    (hne : a ≠ b)
    (hcat : sqA.categoryId = sqB.categoryId) :
    (selectSquare p now fs b).gameState.grid
        = (fs.gameState.grid.filter (fun s => ¬(s.id = a) ∧ ¬(s.id = b)))
            ++ [mergedSquareOf sqA sqB]
      ∧ (selectSquare p now fs b).gameState.grid.length + 1
          = fs.gameState.grid.length
      ∧ (selectSquare p now fs b).gameState.grid.filter (fun s => s.id = sqA.id)
          = [mergedSquareOf sqA sqB]
      ∧ mergedSquareOf sqA sqB
          = { id := sqA.id, items := sqA.items ++ sqB.items,
              categoryId := sqA.categoryId,
              isSolved := sqA.items.length + sqB.items.length == 10 }
      ∧ ((mergedSquareOf sqA sqB).isSolved = true
          ↔ sqA.items.length + sqB.items.length = 10) := by
  have hInv := reachable_inv wf hreach
  have hw : ¬(fs.gameState.status = Status.won) := by
    rw [hplay]
    intro hc
    cases hc
  obtain ⟨hAmem, hAid⟩ := getSquareById_some hA
  obtain ⟨hBmem, hBid⟩ := getSquareById_some hB
  -- b's square cannot be solved: its category already holds a's items
  have hBun : sqB.isSolved = false := by
    rcases hBsol : sqB.isSolved with _ | _
    · rfl
    · exfalso
      have hlen10 : sqB.items.length = 10 := by
        have h2 := hInv.ginv.solvedIff sqB hBmem
        rw [hBsol] at h2
        have h3 := h2.symm
        simpa using h3
      have hsplit := grid_split hInv.ginv.idsNodup hA hB hne
      have hct := hInv.ginv.catTotal sqA.categoryId
      rw [catItems_perm hsplit, catItems_cons, catItems_cons, if_pos rfl,
        if_pos hcat.symm] at hct
      have hlenA : 1 ≤ sqA.items.length := hInv.ginv.itemsPos sqA hAmem
      have hle : (if sqA.categoryId ∈ p.categories.map Category.id
          then 10 else 0) ≤ 10 := by split <;> omega
      omega
  have hcont : fs.selectedSquareIds.contains b = false := by
    rw [hsel]
    simpa using fun heq => hne heq.symm
  rw [selectSquare_second hw hB hBun hcont hsel]
  show ((attemptMerge p now fs.gameState a b).2.grid = _) ∧ _
  rw [attemptMerge_same hA hB hcat]
  have hsplit := grid_split hInv.ginv.idsNodup hA hB hne
  have hrest_ne : ∀ s ∈ fs.gameState.grid.filter
      (fun s => ¬(s.id = a) ∧ ¬(s.id = b)), ¬(s.id = a) ∧ ¬(s.id = b) :=
    fun s hs => by
      have h2 := (List.mem_filter.mp hs).2
      simpa using h2
  refine ⟨rfl, ?_, ?_, rfl, ?_⟩
  · have hlen := hsplit.length_eq
    simp only [List.length_cons] at hlen
    show (List.filter _ fs.gameState.grid ++ [mergedSquareOf sqA sqB]).length + 1
      = fs.gameState.grid.length
    rw [List.length_append, hlen]
    simp
  · show (List.filter _ (List.filter _ fs.gameState.grid ++ [mergedSquareOf sqA sqB]))
      = [mergedSquareOf sqA sqB]
    rw [List.filter_append]
    have h1 : (fs.gameState.grid.filter (fun s => ¬(s.id = a) ∧ ¬(s.id = b))).filter
        (fun s => s.id = sqA.id) = [] := by
      rw [List.filter_eq_nil_iff]
      intro s hs
      have h2 := (hrest_ne s hs).1
      rw [hAid]
      simpa using fun hcontra => h2 (by rw [hcontra])
    have h2 : ([mergedSquareOf sqA sqB].filter (fun s => s.id = sqA.id))
        = [mergedSquareOf sqA sqB] := by
      rw [List.filter_eq_self]
      intro s hs
      rw [List.mem_singleton.mp hs]
      simp [mergedSquareOf]
    rw [h1, h2, List.nil_append]
  · show ((sqA.items.length + sqB.items.length == 10) = true ↔ _)
    simp

/-- Every `selectSquare` call either leaves the `GameState` untouched or is a
second selection, where the new `GameState` comes from `attemptMerge`. -/
theorem selectSquare_cases (p : Puzzle) (now : Nat) (fs : FullState) (i : String) :
    (selectSquare p now fs i).gameState = fs.gameState
    ∨ ∃ first, fs.selectedSquareIds = [first]
        ∧ (selectSquare p now fs i).gameState
            = (attemptMerge p now fs.gameState first i).2 := by
  by_cases hw : fs.gameState.status = Status.won
  · rw [selectSquare_won hw]
    exact Or.inl rfl
  cases hsq : getSquareById fs.gameState.grid i with
  | none =>
    rw [selectSquare_missing hsq]
    exact Or.inl rfl
  | some sq =>
    by_cases hs : sq.isSolved = true
    · rw [selectSquare_solved hsq hs]
      exact Or.inl rfl
    have hs' : sq.isSolved = false := Bool.eq_false_iff.mpr hs
    by_cases hcont : fs.selectedSquareIds.contains i = true
    · rw [selectSquare_deselect hw hsq hs' hcont]
      exact Or.inl rfl
    · have hcont' : fs.selectedSquareIds.contains i = false := Bool.eq_false_iff.mpr hcont
      rcases hsel : fs.selectedSquareIds with _ | ⟨first, _ | ⟨y, zs⟩⟩
      · rw [selectSquare_first hw hsq hs' hcont' hsel]
        exact Or.inl rfl
      · rw [selectSquare_second hw hsq hs' hcont' hsel]
        exact Or.inr ⟨first, rfl, rfl⟩

      · have heq : selectSquare p now fs i =
            { fs with
                lastMergeResult := none
                shakingSquareIds := []
                selectedSquareIds := [i] } := by
          unfold selectSquare
          rw [if_neg hw, hsq]
          dsimp only
          rw [if_neg (by rw [hs']; exact Bool.false_ne_true), hsel]
          rw [hsel] at hcont'
          rw [if_neg (by rw [hcont']; exact Bool.false_ne_true)]
        rw [heq]
        exact Or.inl rfl

/-- C2 (amended): `attemptMerge` increments `mistakes` by exactly 1 when both
squares are found and their categories differ (the failed merge), by 0 on a
successful merge, and by 0 on the defensive missing-id failure; consequently
`mistakes` never decreases under any in-session operation. -/
theorem claim_C2_mistakes (p : Puzzle) (now : Nat) (gs : GameState)
    (a b : String) :
    ((attemptMerge p now gs a b).2.mistakes
      = match getSquareById gs.grid a, getSquareById gs.grid b with
        | some sqA, some sqB =>
          if sqA.categoryId = sqB.categoryId then gs.mistakes else gs.mistakes + 1
        | _, _ => gs.mistakes)
    ∧ (∀ (m : GridSquare) (c : Option Category),
        (attemptMerge p now gs a b).1 = MergeResult.success m c →
          (attemptMerge p now gs a b).2.mistakes = gs.mistakes)
    ∧ gs.mistakes ≤ (attemptMerge p now gs a b).2.mistakes
    ∧ (∀ (fs : FullState) (i : String),
        fs.gameState.mistakes ≤ (selectSquare p now fs i).gameState.mistakes)
    ∧ (∀ fs : FullState,
        (clearSelection fs).gameState.mistakes = fs.gameState.mistakes
        ∧ (clearShake fs).gameState.mistakes = fs.gameState.mistakes) := by
  have hmain : ∀ (gs' : GameState) (x y : String),
      (attemptMerge p now gs' x y).2.mistakes
        = match getSquareById gs'.grid x, getSquareById gs'.grid y with
          | some sqA, some sqB =>
            if sqA.categoryId = sqB.categoryId then gs'.mistakes
            else gs'.mistakes + 1
          | _, _ => gs'.mistakes := by
    intro gs' x y
    cases hA : getSquareById gs'.grid x with
    | none =>
      rw [attemptMerge_missing (Or.inl hA)]
    | some sqA =>
      cases hB : getSquareById gs'.grid y with
      | none => rw [attemptMerge_missing (Or.inr hB)]
      | some sqB =>
        by_cases hcat : sqA.categoryId = sqB.categoryId
        · rw [attemptMerge_same hA hB hcat]
          dsimp only
          rw [if_pos hcat]
        · rw [attemptMerge_mismatch hA hB hcat]
          dsimp only
          rw [if_neg hcat]
  have hfail : ∀ (gs' : GameState) (x y : String) (m : GridSquare)
      (c : Option Category), (attemptMerge p now gs' x y).1
        = MergeResult.success m c →
        (attemptMerge p now gs' x y).2.mistakes = gs'.mistakes := by
    intro gs' x y m c hsucc
    cases hA : getSquareById gs'.grid x with
    | none =>
      rw [attemptMerge_missing (Or.inl hA)] at hsucc
      cases hsucc
    | some sqA =>
      cases hB : getSquareById gs'.grid y with
      | none =>
        rw [attemptMerge_missing (Or.inr hB)] at hsucc
        cases hsucc
      | some sqB =>
        by_cases hcat : sqA.categoryId = sqB.categoryId
        · rw [attemptMerge_same hA hB hcat]
        · rw [attemptMerge_mismatch hA hB hcat] at hsucc
          cases hsucc
  have hmono : ∀ (gs' : GameState) (x y : String),
      gs'.mistakes ≤ (attemptMerge p now gs' x y).2.mistakes := by
    intro gs' x y
    rw [hmain gs' x y]
    cases getSquareById gs'.grid x with
    | none => exact Nat.le_refl _
    | some sqA =>
      cases getSquareById gs'.grid y with
      | none => exact Nat.le_refl _
      | some sqB =>
        dsimp only
        by_cases hcat : sqA.categoryId = sqB.categoryId
        · rw [if_pos hcat]
        · rw [if_neg hcat]
          omega
  refine ⟨hmain gs a b, hfail gs a b, hmono gs a b, ?_, fun fs => ⟨rfl, rfl⟩⟩
  intro fs i
  rcases selectSquare_cases p now fs i with heq | ⟨first, _, heq⟩
  · rw [heq]
  · rw [heq]
    exact hmono fs.gameState first i

/-- C2 counterexample: from the (reachable) freshly initialized sample state,
an `attemptMerge` on two ids absent from the grid returns failure yet leaves
`mistakes` at 0 — a failed attempt whose increment is 0, not 1. -/
theorem claim_C2_counterexample :
    (attemptMerge witnessPuzzle 0
        (initialFullState rsZero 0 witnessPuzzle).gameState "zz" "ww").1
      = MergeResult.failure
    ∧ (attemptMerge witnessPuzzle 0
        (initialFullState rsZero 0 witnessPuzzle).gameState "zz" "ww").2.mistakes
      = 0 := by
  decide

theorem claim_C1_witness :
    (selectSquare witnessPuzzle 0 witnessSel "a-1").gameState.grid.length + 1
        = witnessSel.gameState.grid.length
    ∧ (selectSquare witnessPuzzle 0 witnessSel "a-1").gameState.grid.filter
        (fun s => s.id = witnessSqA.id) = [mergedSquareOf witnessSqA witnessSqB] :=
  have h := claim_C1_merge_same_category witnessPuzzle 0 witnessSel "a-0" "a-1"
    witnessSqA witnessSqB witnessPuzzle_wf
    (Reachable.select 0 "a-0" (Reachable.init rsZero 0))
    (by decide) (by decide) (by decide) (by decide) (by decide) (by decide)
    (by decide)
  ⟨h.2.1, h.2.2.1⟩

theorem claim_C3_witness : totalItems witnessInit.gameState.grid = 100 :=
  claim_C3_total_100 witnessPuzzle witnessInit witnessPuzzle_wf
    (Reachable.init rsZero 0)

theorem claim_C4_witness :
    witnessInit.gameState.solvedCategoryIds.Nodup
    ∧ (witnessInit.gameState.status = Status.won
        ↔ witnessInit.gameState.solvedCategoryIds.length = 10)
    ∧ (witnessInit.gameState.status = Status.won
        ↔ witnessInit.gameState.endTime.isSome = true) :=
  have h := claim_C4_won_invariants witnessPuzzle witnessInit witnessPuzzle_wf
    (Reachable.init rsZero 0)
  ⟨h.1, h.2.1, h.2.2.1⟩

theorem claim_C5_witness :
    selectSquare witnessPuzzle 0
        { witnessInit with
            gameState := { witnessInit.gameState with status := Status.won } }
        "a-0"
      = { witnessInit with
            gameState := { witnessInit.gameState with status := Status.won } }
    ∧ selectSquare witnessPuzzle 0 witnessInit "zz" = witnessInit :=
  have h1 := claim_C5_selectSquare_noop witnessPuzzle 0
    { witnessInit with
        gameState := { witnessInit.gameState with status := Status.won } } "a-0"
  have h2 := claim_C5_selectSquare_noop witnessPuzzle 0 witnessInit "zz"
  ⟨h1.1 rfl, h2.2.1 (by decide)⟩

theorem claim_C6_witness :
    ({ squares := [witnessWide 9 0], totalItems := 9 } : LayoutRow).squares ≠ []
    ∧ ({ squares := [witnessWide 9 0], totalItems := 9 } : LayoutRow).totalItems
        = totalItems ({ squares := [witnessWide 9 0], totalItems := 9 }
            : LayoutRow).squares
    ∧ ({ squares := [witnessWide 9 0], totalItems := 9 } : LayoutRow).totalItems
        ≤ MAX_ITEMS_PER_ROW :=
  claim_C6_pack_rows witnessPackInput (by decide)
    { squares := [witnessWide 9 0], totalItems := 9 } (by decide)

theorem claim_C7_witness :
    resetGame rsZero 0 witnessPuzzle witnessSel = initialFullState rsZero 0 witnessPuzzle
    ∧ (resetGame rsZero 0 witnessPuzzle witnessSel).gameState.grid.length = 100
    ∧ (resetGame rsZero 0 witnessPuzzle witnessSel).gameState.mistakes = 0
    ∧ (resetGame rsZero 0 witnessPuzzle witnessSel).gameState.solvedCategoryIds = []
    ∧ (resetGame rsZero 0 witnessPuzzle witnessSel).gameState.status = Status.playing
    ∧ (resetGame rsZero 0 witnessPuzzle witnessSel).gameState.endTime = none :=
  have h := claim_C7_reset witnessPuzzle rsZero 0 witnessSel witnessPuzzle_wf
  ⟨h.1, h.2.2.1, h.2.2.2.2.2.1, h.2.2.2.2.2.2.1, h.2.2.2.2.2.2.2.1,
    h.2.2.2.2.2.2.2.2.2⟩

theorem claim_C8_witness :
    (selectSquare witnessPuzzle 0 witnessSel "a-0").selectedSquareIds = []
    ∧ (selectSquare witnessPuzzle 0 witnessSel "a-0").gameState
        = witnessSel.gameState :=
  claim_C8_deselect witnessPuzzle 0 witnessSel "a-0" witnessSqA witnessPuzzle_wf
    (Reachable.select 0 "a-0" (Reachable.init rsZero 0))
    (by decide) (by decide) (by decide)

theorem claim_C10_witness :
    (witnessInit.gameState.grid.map GridSquare.id).Nodup
    ∧ (getSquareById witnessInit.gameState.grid "a-0" = some witnessSqA
        ↔ witnessSqA ∈ witnessInit.gameState.grid ∧ witnessSqA.id = "a-0") :=
  have h := claim_C10_ids_nodup witnessPuzzle witnessInit witnessPuzzle_wf
    (Reachable.init rsZero 0)
  ⟨h.1, h.2 "a-0" witnessSqA⟩
